import Mathlib

/-!
Shallow embedding of the Marisol bates-numbering library
(src/marisol/marisol.py) for checking its natural-language specification.

Conventions of the embedding:
* Python `int`/`float` page coordinates and dimensions are modelled as `ℚ`;
  bates numbers, fill widths and indices are `Nat` (the configuration
  contract restricts them to non-negative values).
* A PDF input file is abstracted as its base name (extension already
  stripped, as `os.path.splitext(os.path.basename(file))[0]` does) together
  with the list of its pages' (width, height) dimensions in points; the
  binary page contents are out of scope (spec §1, §6: external collaborator).
* Exceptions are modelled by the inductive `Exc`; a method that can raise
  returns the unchanged receiver together with `some e` (mutation in the
  Python original happens only after all checks, so a raise leaves the
  object untouched) or an `Except` value.
* The filesystem is modelled as the list of paths that currently exist;
  writing a file conses its path onto that list.
-/

/-- The four page quadrants, `class Area(Enum)` in the source. -/
inductive Area
  | TOP_LEFT
  | TOP_RIGHT
  | BOTTOM_LEFT
  | BOTTOM_RIGHT
deriving DecidableEq

/-- Named redaction style presets, `class RedactionStyle(Enum)` in the source. -/
inductive RedactionStyle
  | SOLID
  | OUTLINE
deriving DecidableEq

/-- Stroke colour triple of a redaction style, from the enum values in the source. -/
def RedactionStyle.stroke : RedactionStyle → ℚ × ℚ × ℚ
  | RedactionStyle.SOLID => (0, 0, 0)
  | RedactionStyle.OUTLINE => (0, 0, 0)

/-- Fill colour triple of a redaction style, from the enum values in the source. -/
def RedactionStyle.fillColor : RedactionStyle → ℚ × ℚ × ℚ
  | RedactionStyle.SOLID => (0, 0, 0)
  | RedactionStyle.OUTLINE => (1, 1, 1)

/-- Text colour triple of a redaction style, from the enum values in the source. -/
def RedactionStyle.textColor : RedactionStyle → ℚ × ℚ × ℚ
  | RedactionStyle.SOLID => (1, 1, 1)
  | RedactionStyle.OUTLINE => (0, 0, 0)

/-- The Python exceptions the source can raise, by kind.  `fileExists`
models `FileExistsError` (raised by `Document.save`), `outsideBoundaries`
models `OutsideBoundariesError` (raised by `Page.add_redaction`),
`areaReserved` models the `ValueError` raised by `Document.add_overlay`,
and `otherError` stands for any other exception a save task may raise
(rendering or IO failures inside `Document.save`). -/
inductive Exc
  | fileExists (path : String)
  | outsideBoundaries
  | areaReserved (a : Area)
  | otherError (msg : String)
deriving DecidableEq

/-- Python `str.zfill` restricted to sign-free strings: left-pad with
zeros up to `width`; a string already at least `width` long is returned
unchanged.  All numbers the source formats are non-negative, so the sign
handling of the Python original is never exercised. -/
def zfill (s : String) (width : Nat) : String :=
  if width ≤ s.length then s
  else String.mk (List.replicate (width - s.length) '0') ++ s

/-- Discriminates the three overlay classes of the source:
`BatesOverlay`, `StaticOverlay` and their base `GenericTextOverlay`.
Only the class tag matters for `isinstance` checks. -/
inductive OverlayKind
  | bates
  | staticText
  | genericText
deriving DecidableEq

/-- A text overlay, `class GenericTextOverlay` (and its subclasses) in the
source.  `text` is `Option` because `BatesOverlay` is constructed with
`text=None` and only receives its text per page at render time. -/
structure Overlay where
  kind : OverlayKind
  text : Option String
  area : Area
  x : ℚ
  y : ℚ
  rotation : Int
  manual : Bool
deriving DecidableEq

/-- Python `isinstance(v, BatesOverlay)` on the contents of an overlay
slot (`None` or an overlay object). -/
def isBatesOverlay : Option Overlay → Bool
  | none => false
  | some o => o.kind = OverlayKind.bates

/-- The source's `GenericTextOverlay.position(self, c, x, y, h=15, manual=True)`.
The canvas argument is abstracted by the page size `(pw, ph)` it carries and
by `sw = c.stringWidth(self.text)`, the measured width of the overlay text.
The two `let` bindings reproduce the source's `from_bottom` / `from_left`
computations, which the final return statement does not use. -/
def Overlay.position (o : Overlay) (pw ph : ℚ) (sw : ℚ) (x y : ℚ) (h : ℚ) : ℚ × ℚ :=
  if o.manual then
    (x, y)
  else
    let from_bottom : ℚ :=
      if o.area = Area.BOTTOM_LEFT ∨ o.area = Area.BOTTOM_RIGHT then ph - h else h
    let from_left : ℚ :=
      if o.area = Area.TOP_LEFT ∨ o.area = Area.BOTTOM_LEFT then h else pw - (h + sw)
    (30, pw - sw)

/-- A redaction rectangle, `class Redaction` in the source.  `position` is
the (from-left, from-bottom) corner and `size` the (width, height), both in
points. -/
structure Redaction where
  position : ℚ × ℚ
  size : ℚ × ℚ
  text : Option String
  style : RedactionStyle
deriving DecidableEq

/-- The centre point the `Redaction.__init__` of the source computes and
stores: horizontally the middle of the box, vertically the middle shifted
down by five points. -/
def Redaction.center (r : Redaction) : ℚ × ℚ :=
  (r.position.1 + r.size.1 / 2, r.position.2 + r.size.2 / 2 - 5)

/-- A page of a document, `class Page` in the source.  The underlying
PyPDF2 page object is abstracted by the `width` and `height` the source
reads from its media box; the canvas is render-state out of scope. -/
structure Page where
  pfx : String
  fill : Nat
  start : Nat
  width : ℚ
  height : ℚ
  redactions : List Redaction
deriving DecidableEq

/-- The bates string of a page, property `Page.number` in the source:
the prefix followed by the page's sequence number zero-filled to `fill`. -/
def Page.number (p : Page) : String :=
  p.pfx ++ zfill (Nat.repr p.start) p.fill

/-- The source's `Page.add_redaction`: raise `OutsideBoundariesError` when
the redaction's far corner exceeds the page width or height, else append
the redaction to the page's list.  A raise returns the page unchanged
together with the error. -/
def Page.add_redaction (p : Page) (r : Redaction) : Page × Option Exc :=
  if r.position.1 + r.size.1 > p.width ∨ r.position.2 + r.size.2 > p.height then
    (p, some Exc.outsideBoundaries)
  else
    ({ p with redactions := p.redactions ++ [r] }, none)

/-- The per-document area → overlay registry, the source's
`self.overlays = {x: None for x in Area}` dictionary: one optional overlay
slot per quadrant. -/
structure OverlayRegistry where
  topLeft : Option Overlay
  topRight : Option Overlay
  bottomLeft : Option Overlay
  bottomRight : Option Overlay
deriving DecidableEq

/-- Dictionary lookup `overlays[area]`. -/
def OverlayRegistry.get (r : OverlayRegistry) : Area → Option Overlay
  | Area.TOP_LEFT => r.topLeft
  | Area.TOP_RIGHT => r.topRight
  | Area.BOTTOM_LEFT => r.bottomLeft
  | Area.BOTTOM_RIGHT => r.bottomRight

/-- Dictionary assignment `overlays[area] = v`. -/
def OverlayRegistry.set (r : OverlayRegistry) (a : Area) (v : Option Overlay) : OverlayRegistry :=
  match a with
  | Area.TOP_LEFT => { r with topLeft := v }
  | Area.TOP_RIGHT => { r with topRight := v }
  | Area.BOTTOM_LEFT => { r with bottomLeft := v }
  | Area.BOTTOM_RIGHT => { r with bottomRight := v }

/-- The all-`None` registry the dict comprehension builds. -/
def OverlayRegistry.empty : OverlayRegistry :=
  { topLeft := none, topRight := none, bottomLeft := none, bottomRight := none }

/-- A document, `class Document` in the source. -/
structure Document where
  savename : String
  pfx : String
  fill : Nat
  start : Nat
  area : Area
  x : ℚ
  y : ℚ
  rotation : Int
  manual : Bool
  overlays : OverlayRegistry
  pages : List Page
deriving DecidableEq

/-- `Document.__init__`: record the configuration, reserve the numbering
overlay's slot (`self.overlays[area] = BatesOverlay(None, area, ...)`) and
eagerly build one `Page` per source page, page `num` getting sequence
number `start + num`.  The PDF input is abstracted as its base name and the
list of its pages' dimensions. -/
def Document.make (file : String) (pfx : String) (fill start : Nat) (area : Area)
    (x y : ℚ) (rotation : Int) (manual : Bool) (pageDims : List (ℚ × ℚ)) : Document :=
  { savename := file
    pfx := pfx
    fill := fill
    start := start
    area := area
    x := x
    y := y
    rotation := rotation
    manual := manual
    overlays := OverlayRegistry.empty.set area
      (some { kind := OverlayKind.bates, text := none, area := area,
              x := x, y := y, rotation := rotation, manual := manual })
    pages := pageDims.enum.map (fun it =>
      { pfx := pfx, fill := fill, start := start + it.1,
        width := it.2.1, height := it.2.2, redactions := [] }) }

/-- Property `Document.begin` of the source: bates string of the first page. -/
def Document.beginBates (d : Document) : String :=
  d.pfx ++ zfill (Nat.repr d.start) d.fill

/-- Property `Document.end` of the source: bates string of the last page,
`prefix + zfill(start + len(self) - 1, fill)` where `len(self)` is the
page count. -/
def Document.endBates (d : Document) : String :=
  d.pfx ++ zfill (Nat.repr (d.start + d.pages.length - 1)) d.fill

/-- The source's `Document.add_overlay`: raise `ValueError` when the slot
for the overlay's area holds a `BatesOverlay` (so the registry is left
unchanged), otherwise store the overlay in that slot, replacing whatever
was there. -/
def Document.add_overlay (d : Document) (o : Overlay) : Document × Option Exc :=
  if isBatesOverlay (d.overlays.get o.area) then
    (d, some (Exc.areaReserved o.area))
  else
    ({ d with overlays := d.overlays.set o.area (some o) }, none)

/-- Filename resolution at the top of the source's `Document.save`:
with no filename, `"{begin}.pdf"`; with one, the given base with
`"_{str(start).zfill(fill)}.pdf"` appended. -/
def Document.resolveName (d : Document) (filename : Option String) : String :=
  match filename with
  | none => d.beginBates ++ ".pdf"
  | some f => f ++ "_" ++ zfill (Nat.repr d.start) d.fill ++ ".pdf"

/-- The source's `Document.save` at the filesystem level: resolve the
output name, raise `FileExistsError` before anything is written when the
path exists and overwrite is disabled, otherwise write the rendered
document there (modelled as the path joining the filesystem) and return
the path.  Rendering of the page contents is the out-of-scope collaborator
capability and does not affect the name or collision behaviour. -/
def Document.save (d : Document) (filename : Option String) (overwrite : Bool)
    (fs : List String) : List String × Except Exc String :=
  if Document.resolveName d filename ∈ fs ∧ overwrite = false then
    (fs, Except.error (Exc.fileExists (Document.resolveName d filename)))
  else
    (Document.resolveName d filename :: fs, Except.ok (Document.resolveName d filename))

/-- The collection of documents, `class Marisol` in the source.  `index` is
the cursor of the class's own iterator protocol (`__iter__` returns `self`
and `__next__` advances `self.index`); `number` is the running page-count
offset `append` maintains. -/
structure Marisol where
  pfx : String
  fill : Nat
  start : Nat
  area : Area
  x : ℚ
  y : ℚ
  rotation : Int
  manual : Bool
  output_dir : String
  index : Nat
  number : Nat
  documents : List Document
  overwrite : Bool
deriving DecidableEq

/-- `Marisol.__init__`: store the configuration and start with
`index = 0`, `number = 0`, no documents, `overwrite = False`. -/
def Marisol.init (pfx : String) (fill start : Nat) (area : Area) (x y : ℚ)
    (rotation : Int) (manual : Bool) (output_dir : String) : Marisol :=
  { pfx := pfx, fill := fill, start := start, area := area, x := x, y := y,
    rotation := rotation, manual := manual, output_dir := output_dir,
    index := 0, number := 0, documents := [], overwrite := false }

/-- `Marisol.append`: construct a `Document` starting at
`self.start + self.number`, advance `number` by the document's page count
and push the document at the end of the list. -/
def Marisol.append (m : Marisol) (file : String) (pageDims : List (ℚ × ℚ)) : Marisol :=
  let d := Document.make file m.pfx m.fill (m.start + m.number) m.area
    m.x m.y m.rotation m.manual pageDims
  { m with number := m.number + d.pages.length, documents := m.documents ++ [d] }

/-- Appending a sequence of input files one at a time, each given as its
base name and its pages' dimensions. -/
def Marisol.appendAll (m : Marisol) (files : List (String × List (ℚ × ℚ))) : Marisol :=
  files.foldl (fun acc f => Marisol.append acc f.1 f.2) m

/-- `Marisol.__next__`: raise `StopIteration` (here `none`) once `index`
reaches the document count, else advance `index` and yield
`documents[index - 1]`. -/
def Marisol.nextDoc (m : Marisol) : Option (Document × Marisol) :=
  if h : m.index < m.documents.length then
    some (m.documents.get ⟨m.index, h⟩, { m with index := m.index + 1 })
  else none

/-- Repeatedly calling `__next__` until `StopIteration`, with explicit
fuel to keep the recursion structural.  Each step advances `index` by one
over a fixed document list, so `documents.length - index` steps always
reach `StopIteration` (`drainFuel_stops` below makes that exact). -/
def Marisol.drainFuel : Nat → Marisol → List Document × Marisol
  | 0, m => ([], m)
  | fuel + 1, m =>
    match Marisol.nextDoc m with
    | none => ([], m)
    | some (d, m2) =>
      let rest := Marisol.drainFuel fuel m2
      (d :: rest.1, rest.2)

/-- Exhausting the collection's iterator, as `executor.map(..., self)`
does: the yielded documents in order, and the collection with its advanced
cursor. -/
def Marisol.drain (m : Marisol) : List Document × Marisol :=
  Marisol.drainFuel (m.documents.length - m.index) m

/-- The source's `Marisol._save_document`, parametric in the behaviour
`run` of `document.save` (which performs rendering and IO and may raise):
build the save path from the output directory and the document's base
name, catch exactly `FileExistsError` as an `("EXISTS", False)` entry,
report success as `(filename, True)`, and let every other exception
propagate. -/
def Marisol.save_document (m : Marisol) (run : String → Bool → Document → Except Exc String)
    (d : Document) : Except Exc (String × Bool) :=
  let save_path := m.output_dir ++ "/" ++ d.savename
  match run save_path m.overwrite d with
  | Except.ok filename => Except.ok (filename, true)
  | Except.error (Exc.fileExists p) => Except.ok ("EXISTS", false)
  | Except.error e => Except.error e

/-- Materialising `list(results)` over the executor's result iterator:
results come back in task submission order, and the first stored exception
re-raises, aborting the whole collection. -/
def collectResults : List (Except Exc (String × Bool)) → Except Exc (List (String × Bool))
  | [] => Except.ok []
  | r :: rest =>
    match r with
    | Except.error e => Except.error e
    | Except.ok v =>
      match collectResults rest with
      | Except.error e => Except.error e
      | Except.ok vs => Except.ok (v :: vs)

/-- The source's `Marisol.save`: set `self.overwrite`, feed the
collection's own iterator to the thread pool's `map` (one task per
yielded document, results kept in submission order), and materialise the
result list.  The returned state carries the advanced iterator cursor. -/
def Marisol.save (m : Marisol) (overwrite : Bool)
    (run : String → Bool → Document → Except Exc String) :
    Except Exc (List (String × Bool)) × Marisol :=
  let m1 := { m with overwrite := overwrite }
  let dr := Marisol.drain m1
  (collectResults (dr.1.map (Marisol.save_document m1 run)), dr.2)

/-- The result entry `_save_document` produces for a document whose save
task either succeeds or raises `FileExistsError`. -/
def Marisol.resultEntry (m : Marisol) (run : String → Bool → Document → Except Exc String)
    (d : Document) : String × Bool :=
  match run (m.output_dir ++ "/" ++ d.savename) m.overwrite d with
  | Except.ok fn => (fn, true)
  | Except.error e => ("EXISTS", false)

/-- Outcomes `_save_document` captures instead of propagating: success
and `FileExistsError`. -/
def capturedOutcome : Except Exc String → Bool
  | Except.ok fn => true
  | Except.error (Exc.fileExists p) => true
  | Except.error e => false

/-- Modelled from the spec: the repository imports
`reportlab.lib.pagesizes` but contains no page-size lookup of its own, so
the scan described in §4.3 of the specification is embedded from the
spec's words — walk a fixed table of named standard sizes and return the
name of the first entry whose dimensions match exactly, with no match
reported as `none` rather than any guessed default. -/
def scanPageSizes : List (String × ℚ × ℚ) → ℚ → ℚ → Option String
  | [], _, _ => none
  | e :: rest, w, h =>
    if e.2.1 = w ∧ e.2.2 = h then some e.1 else scanPageSizes rest w h

/-- Modelled from the spec: a fixed table of named standard page sizes in
points (the repository itself only references the external
`reportlab.lib.pagesizes` module and never defines or consults a table). -/
def pageSizeTable : List (String × ℚ × ℚ) :=
  [("LETTER", 612, 792),
   ("LEGAL", 612, 1008),
   ("ELEVENSEVENTEEN", 792, 1224),
   ("A3", 842, 1191),
   ("A4", 595, 842),
   ("A5", 420, 595)]

/-- Modelled from the spec: resolve a page geometry against the fixed
table of named sizes. -/
def lookupPageSize (w h : ℚ) : Option String :=
  scanPageSizes pageSizeTable w h

/-- C1: the claim says every per-document failure is captured as an
`(identifier, ok)` entry and never aborts the overall save-all call.  The
code catches only `FileExistsError`: on a two-document collection whose
second document's save task raises any other exception, `Marisol.save`
returns that exception instead of a two-entry result list, discarding the
sibling document's success. -/
theorem marisol_c1_uncaught_exception_aborts_save :
    (Marisol.save
        (Marisol.append
          (Marisol.append (Marisol.init "ABC" 6 1 Area.BOTTOM_RIGHT 300 30 0 true ".")
            "a" [(612, 792)])
          "b" [(612, 792)])
        false
        (fun p _ d =>
          if d.savename = "a" then Except.ok p
          else Except.error (Exc.otherError "render failure"))).1 =
      Except.error (Exc.otherError "render failure") := by
  rfl

/-- C2: the claim says automatic positioning anchors at
`(page_width − h − text_width, h)` for a bottom-right overlay.  On a
612 × 792 point page with text width 50 and margin 15 the code instead
returns `(30, page_width − text_width) = (30, 562)`, not the claimed
`(612 − 15 − 50, 15) = (547, 15)`: the computed quadrant anchors are
discarded by the final return statement. -/
theorem marisol_c2_auto_position_ignores_area :
    Overlay.position
        { kind := OverlayKind.bates, text := some "ABC000001", area := Area.BOTTOM_RIGHT,
          x := 300, y := 30, rotation := 0, manual := false }
        612 792 50 300 30 15 = (30, 562) ∧
      ((30 : ℚ), (562 : ℚ)) ≠ ((612 - 15 - 50 : ℚ), (15 : ℚ)) := by
  constructor
  · show ((30 : ℚ), (612 : ℚ) - 50) = (30, 562)
    norm_num
  · intro hEq
    have h2 : (562 : ℚ) = 15 := congrArg Prod.snd hEq
    norm_num at h2

/-- C3 counterexample: the claim says every call to `Marisol.save`,
including a second call on the same collection, returns one entry per
appended document.  The collection's iterator cursor is never reset, so on
a one-document collection the second call returns the empty list. -/
theorem marisol_c3_second_save_returns_empty :
    ((Marisol.save
        ((Marisol.save
            (Marisol.append (Marisol.init "ABC" 6 1 Area.BOTTOM_RIGHT 300 30 0 true ".")
              "a" [(612, 792)])
            false (fun p _ _ => Except.ok p)).2)
        false (fun p _ _ => Except.ok p)).1 = Except.ok []) ∧
      (Marisol.append (Marisol.init "ABC" 6 1 Area.BOTTOM_RIGHT 300 30 0 true ".")
          "a" [(612, 792)]).documents.length = 1 := by
  exact ⟨rfl, rfl⟩

/-- C4 counterexample: the claim says `add_redaction` raises exactly when
the box `[x, x + w] × [y, y + h]` is not inside `[0, width] × [0, height]`.
A redaction at position `(-100, 0)` of size `(10, 10)` on a 612 × 792 page
lies outside that region (its left edge is negative), yet the code accepts
it: only the two upper bounds are checked. -/
theorem marisol_c4_negative_position_accepted :
    (Page.add_redaction
        { pfx := "ABC", fill := 6, start := 1, width := 612, height := 792, redactions := [] }
        { position := (-100, 0), size := (10, 10), text := none,
          style := RedactionStyle.SOLID }).2 = none ∧
      ¬((0 : ℚ) ≤ -100 ∧ (-100 : ℚ) + 10 ≤ 612 ∧ (0 : ℚ) ≤ 0 ∧ (0 : ℚ) + 10 ≤ 792) := by
  constructor
  · norm_num [Page.add_redaction]
  · intro hBox
    have h1 : (0 : ℚ) ≤ -100 := hBox.1
    norm_num at h1

/-- C4 as amended: `add_redaction` raises the outside-boundaries error if
and only if `x + w > width` or `y + h > height` (the lower bounds of the
box are not checked; the upper bounds are boundary-inclusive, so
`x + w = width` and `y + h = height` succeed); when it raises, the page is
unchanged, and when it succeeds the redaction is appended to the page's
list. -/
theorem marisol_c4_upper_bound_check (p : Page) (r : Redaction) :
    ((Page.add_redaction p r).2 = some Exc.outsideBoundaries ↔
      (r.position.1 + r.size.1 > p.width ∨ r.position.2 + r.size.2 > p.height)) ∧
    ((Page.add_redaction p r).2 = some Exc.outsideBoundaries → (Page.add_redaction p r).1 = p) ∧
    ((Page.add_redaction p r).2 = none →
      (Page.add_redaction p r).1.redactions = p.redactions ++ [r]) := by
  unfold Page.add_redaction
  by_cases hC : r.position.1 + r.size.1 > p.width ∨ r.position.2 + r.size.2 > p.height
  · rw [if_pos hC]
    refine ⟨⟨fun _ => hC, fun _ => rfl⟩, fun _ => rfl, fun hNone => ?_⟩
    exact absurd hNone (by simp)
  · rw [if_neg hC]
    refine ⟨⟨fun hSome => ?_, fun hCond => absurd hCond hC⟩, fun hSome => ?_, fun _ => rfl⟩
    · exact absurd hSome (by simp)
    · exact absurd hSome (by simp)

/-- Witness for `marisol_c4_upper_bound_check`: a full-page redaction at
the origin, `position = (0, 0)`, `size = (612, 792)` on a 612 × 792 page,
touches both upper boundaries and is accepted and appended. -/
theorem marisol_c4_upper_bound_check_witness :
    (Page.add_redaction
        { pfx := "ABC", fill := 6, start := 1, width := 612, height := 792, redactions := [] }
        { position := (0, 0), size := (612, 792), text := none,
          style := RedactionStyle.SOLID }).1.redactions =
      [] ++ [{ position := (0, 0), size := (612, 792), text := none,
               style := RedactionStyle.SOLID }] := by
  exact (marisol_c4_upper_bound_check
    { pfx := "ABC", fill := 6, start := 1, width := 612, height := 792, redactions := [] }
    { position := (0, 0), size := (612, 792), text := none,
      style := RedactionStyle.SOLID }).2.2 (by norm_num [Page.add_redaction])

/-- C8: for every page, when the decimal length of its number is at most
`fill` the bates string is the prefix followed by the number zero-padded
with exactly `fill - length` zeros, and when the decimal length exceeds
`fill` the bates string is the prefix followed by the bare decimal digits,
neither truncated nor padded; `Page.number` is total, so no input raises. -/
theorem marisol_c8_no_truncation (p : Page) :
    (p.fill < (Nat.repr p.start).length → Page.number p = p.pfx ++ Nat.repr p.start) ∧
    ((Nat.repr p.start).length ≤ p.fill →
      Page.number p =
        p.pfx ++ (String.mk (List.replicate (p.fill - (Nat.repr p.start).length) '0') ++
          Nat.repr p.start)) := by
  constructor
  · intro hLong
    unfold Page.number zfill
    rw [if_pos (Nat.le_of_lt hLong)]
  · intro hShort
    unfold Page.number zfill
    by_cases hEq : p.fill ≤ (Nat.repr p.start).length
    · have hSame : p.fill = (Nat.repr p.start).length := Nat.le_antisymm hEq hShort
      rw [if_pos hEq, hSame, Nat.sub_self]
      rfl
    · rw [if_neg hEq]

/-- Witness for `marisol_c8_no_truncation`: with `fill = 3` and page
number 12345 the rendered string is `"ABC12345"`, unpadded and untruncated. -/
theorem marisol_c8_no_truncation_witness :
    Page.number { pfx := "ABC", fill := 3, start := 12345, width := 612, height := 792,
                  redactions := [] } = "ABC" ++ Nat.repr 12345 := by
  exact (marisol_c8_no_truncation
    { pfx := "ABC", fill := 3, start := 12345, width := 612, height := 792,
      redactions := [] }).1 (by decide)

/-- Reading a slot just assigned returns the assigned value. -/
theorem OverlayRegistry.get_set_same (r : OverlayRegistry) (a : Area) (v : Option Overlay) :
    (r.set a v).get a = v := by
  cases a <;> rfl

/-- Assigning one slot leaves every other slot unchanged. -/
theorem OverlayRegistry.get_set_other (r : OverlayRegistry) (a b : Area) (v : Option Overlay)
    (hab : a ≠ b) : (r.set b v).get a = r.get a := by
  cases a <;> cases b <;> first | rfl | exact absurd rfl hab

/-- C6: `add_overlay` raises the area-reserved error exactly when the slot
for the overlay's area holds the numbering (`BatesOverlay`) overlay; on
that error the whole document, hence its overlay registry, is returned
unchanged; otherwise the call succeeds, the overlay occupies the slot and
every other slot is untouched. -/
theorem marisol_c6_area_reserved (d : Document) (o : Overlay) :
    ((Document.add_overlay d o).2.isSome = isBatesOverlay (d.overlays.get o.area)) ∧
    (isBatesOverlay (d.overlays.get o.area) = true →
      Document.add_overlay d o = (d, some (Exc.areaReserved o.area))) ∧
    (isBatesOverlay (d.overlays.get o.area) = false →
      (Document.add_overlay d o).2 = none ∧
      (Document.add_overlay d o).1.overlays.get o.area = some o ∧
      ∀ a : Area, a ≠ o.area →
        (Document.add_overlay d o).1.overlays.get a = d.overlays.get a) := by
  unfold Document.add_overlay
  by_cases hB : isBatesOverlay (d.overlays.get o.area) = true
  · rw [if_pos hB, hB]
    exact ⟨rfl, fun _ => rfl, fun hFalse => absurd hFalse (by simp)⟩
  · have hBF : isBatesOverlay (d.overlays.get o.area) = false := by
      simpa using hB
    rw [if_neg hB, hBF]
    refine ⟨rfl, fun hTrue => absurd hTrue (by simp), fun _ => ⟨rfl, ?_, fun a ha => ?_⟩⟩
    · exact OverlayRegistry.get_set_same d.overlays o.area (some o)
    · exact OverlayRegistry.get_set_other d.overlays a o.area (some o) ha

/-- Witness for `marisol_c6_area_reserved`: on a freshly constructed
document whose numbering overlay is pinned to the bottom-right quadrant,
adding a static overlay targeting the bottom-right quadrant fails with the
area-reserved error and leaves the document unchanged. -/
theorem marisol_c6_area_reserved_witness :
    Document.add_overlay
        (Document.make "a" "ABC" 6 1 Area.BOTTOM_RIGHT 300 30 0 true [(612, 792)])
        { kind := OverlayKind.staticText, text := some "CONFIDENTIAL",
          area := Area.BOTTOM_RIGHT, x := 10, y := 10, rotation := 0, manual := true } =
      (Document.make "a" "ABC" 6 1 Area.BOTTOM_RIGHT 300 30 0 true [(612, 792)],
        some (Exc.areaReserved Area.BOTTOM_RIGHT)) := by
  exact (marisol_c6_area_reserved
    (Document.make "a" "ABC" 6 1 Area.BOTTOM_RIGHT 300 30 0 true [(612, 792)])
    { kind := OverlayKind.staticText, text := some "CONFIDENTIAL",
      area := Area.BOTTOM_RIGHT, x := 10, y := 10, rotation := 0, manual := true }).2.1 rfl

/-- C10: when the slot for the new overlay's area holds a non-numbering
overlay, `add_overlay` never raises: it succeeds and silently replaces the
stored overlay with the new one. -/
theorem marisol_c10_last_writer_wins (d : Document) (o ov : Overlay)
    (hslot : d.overlays.get o.area = some ov) (hkind : ov.kind ≠ OverlayKind.bates) :
    (Document.add_overlay d o).2 = none ∧
    (Document.add_overlay d o).1.overlays.get o.area = some o := by
  have hB : ¬(isBatesOverlay (d.overlays.get o.area) = true) := by
    rw [hslot]
    simp [isBatesOverlay, hkind]
  unfold Document.add_overlay
  rw [if_neg hB]
  exact ⟨rfl, OverlayRegistry.get_set_same d.overlays o.area (some o)⟩

/-- Witness for `marisol_c10_last_writer_wins`: a static overlay occupies
the top-left quadrant of a document whose numbering overlay sits bottom
right; adding a second overlay for the top-left quadrant succeeds and the
slot afterwards holds the new overlay. -/
theorem marisol_c10_last_writer_wins_witness :
    ((Document.add_overlay
        (Document.add_overlay
          (Document.make "a" "ABC" 6 1 Area.BOTTOM_RIGHT 300 30 0 true [(612, 792)])
          { kind := OverlayKind.staticText, text := some "DRAFT",
            area := Area.TOP_LEFT, x := 10, y := 10, rotation := 0, manual := true }).1
        { kind := OverlayKind.genericText, text := some "FINAL",
          area := Area.TOP_LEFT, x := 20, y := 20, rotation := 0, manual := true }).2 = none) ∧
    ((Document.add_overlay
        (Document.add_overlay
          (Document.make "a" "ABC" 6 1 Area.BOTTOM_RIGHT 300 30 0 true [(612, 792)])
          { kind := OverlayKind.staticText, text := some "DRAFT",
            area := Area.TOP_LEFT, x := 10, y := 10, rotation := 0, manual := true }).1
        { kind := OverlayKind.genericText, text := some "FINAL",
          area := Area.TOP_LEFT, x := 20, y := 20, rotation := 0, manual := true
          }).1.overlays.get Area.TOP_LEFT =
      some { kind := OverlayKind.genericText, text := some "FINAL",
             area := Area.TOP_LEFT, x := 20, y := 20, rotation := 0, manual := true }) := by
  exact marisol_c10_last_writer_wins
    (Document.add_overlay
      (Document.make "a" "ABC" 6 1 Area.BOTTOM_RIGHT 300 30 0 true [(612, 792)])
      { kind := OverlayKind.staticText, text := some "DRAFT",
        area := Area.TOP_LEFT, x := 10, y := 10, rotation := 0, manual := true }).1
    { kind := OverlayKind.genericText, text := some "FINAL",
      area := Area.TOP_LEFT, x := 20, y := 20, rotation := 0, manual := true }
    { kind := OverlayKind.staticText, text := some "DRAFT",
      area := Area.TOP_LEFT, x := 10, y := 10, rotation := 0, manual := true }
    rfl (by simp)

/-- C7: `Document.save` resolves the output name to `begin.pdf` when no
base name is supplied and to `base_name_<zero-padded-start>.pdf`
otherwise, and whenever the resolved path already exists and overwrite is
disabled it fails with the `FileExistsError` collision before anything is
written: the filesystem is returned exactly as it was. -/
theorem marisol_c7_save_naming_and_collision (d : Document) (filename : Option String)
    (overwrite : Bool) (fs : List String) :
    (Document.resolveName d none = Document.beginBates d ++ ".pdf") ∧
    (∀ f : String, Document.resolveName d (some f) =
      f ++ "_" ++ zfill (Nat.repr d.start) d.fill ++ ".pdf") ∧
    (Document.resolveName d filename ∈ fs → overwrite = false →
      Document.save d filename overwrite fs =
        (fs, Except.error (Exc.fileExists (Document.resolveName d filename)))) := by
  refine ⟨rfl, fun f => rfl, fun hMem hOw => ?_⟩
  unfold Document.save
  rw [if_pos ⟨hMem, hOw⟩]

/-- Witness for `marisol_c7_save_naming_and_collision`: saving a document
with base name `./a`, starting number 1 and fill 6 resolves to
`./a_000001.pdf`; with that file already present and overwrite disabled,
the save fails with the collision error and the filesystem is unchanged. -/
theorem marisol_c7_save_naming_and_collision_witness :
    Document.save (Document.make "a" "ABC" 6 1 Area.BOTTOM_RIGHT 300 30 0 true [(612, 792)])
        (some "./a") false ["./a_000001.pdf"] =
      (["./a_000001.pdf"], Except.error (Exc.fileExists "./a_000001.pdf")) := by
  exact (marisol_c7_save_naming_and_collision
    (Document.make "a" "ABC" 6 1 Area.BOTTOM_RIGHT 300 30 0 true [(612, 792)])
    (some "./a") false ["./a_000001.pdf"]).2.2 (by decide) rfl

/-- A constructed document has one `Page` per source page. -/
theorem Document.make_pages_length (file pfx : String) (fill start : Nat) (area : Area)
    (x y : ℚ) (rotation : Int) (manual : Bool) (pageDims : List (ℚ × ℚ)) :
    (Document.make file pfx fill start area x y rotation manual pageDims).pages.length =
      pageDims.length := by
  simp [Document.make]

/-- The document list the running-offset construction produces: the
document for the head file starts at `s`, the rest start `pageCount` later.
This is the reference shape `Marisol.appendAll` is proved to produce. -/
def docsOf (pfx : String) (fill : Nat) (area : Area) (x y : ℚ) (rotation : Int)
    (manual : Bool) : Nat → List (String × List (ℚ × ℚ)) → List Document
  | _, [] => []
  | s, f :: fs =>
    Document.make f.1 pfx fill s area x y rotation manual f.2 ::
      docsOf pfx fill area x y rotation manual (s + f.2.length) fs

/-- Appending a list of files produces exactly the running-offset document
list, starting at `start + number`, after the already present documents. -/
theorem Marisol.appendAll_documents (files : List (String × List (ℚ × ℚ))) (m : Marisol) :
    (Marisol.appendAll m files).documents =
      m.documents ++
        docsOf m.pfx m.fill m.area m.x m.y m.rotation m.manual (m.start + m.number) files := by
  induction files generalizing m with
  | nil => simp [Marisol.appendAll, docsOf]
  | cons f fs ih =>
    have hstep : Marisol.appendAll m (f :: fs) =
        Marisol.appendAll (Marisol.append m f.1 f.2) fs := rfl
    rw [hstep, ih]
    simp only [Marisol.append, docsOf, Document.make_pages_length]
    simp [Nat.add_assoc]

/-- Element `i` of the running-offset document list is the document built
from file `i`, starting at `s` plus the page counts of the earlier files. -/
theorem docsOf_getElem (pfx : String) (fill : Nat) (area : Area) (x y : ℚ) (rotation : Int)
    (manual : Bool) (files : List (String × List (ℚ × ℚ))) (s i : Nat)
    (fi : String × List (ℚ × ℚ)) (hfi : files[i]? = some fi) :
    (docsOf pfx fill area x y rotation manual s files)[i]? =
      some (Document.make fi.1 pfx fill
        (s + ((files.take i).map (fun f => f.2.length)).sum) area x y rotation manual fi.2) := by
  induction files generalizing s i with
  | nil => simp at hfi
  | cons f fs ih =>
    cases i with
    | zero =>
      simp only [List.getElem?_cons_zero, Option.some.injEq] at hfi
      subst hfi
      simp [docsOf]
    | succ i2 =>
      simp only [List.getElem?_cons_succ] at hfi
      have hrec := ih (s + f.2.length) i2 hfi
      simp only [docsOf, List.getElem?_cons_succ, hrec, List.take_succ_cons, List.map_cons,
        List.sum_cons, Option.some.injEq]
      rw [Nat.add_assoc]

/-- Position `i` of an `enumFrom` pairs the element with `n + i`. -/
theorem enumFrom_getElem (n i : Nat) (l : List (ℚ × ℚ)) :
    (List.enumFrom n l)[i]? = (l[i]?).map (fun a => (n + i, a)) := by
  induction l generalizing n i with
  | nil => simp
  | cons a as ih =>
    cases i with
    | zero => simp [List.enumFrom]
    | succ i2 =>
      simp only [List.enumFrom, List.getElem?_cons_succ, ih (n + 1) i2]
      cases as[i2]? with
      | none => rfl
      | some b =>
        show some (n + 1 + i2, b) = some (n + (i2 + 1), b)
        have hn : n + 1 + i2 = n + (i2 + 1) := by omega
        rw [hn]

/-- C5: with collection-level starting number `start` and files appended
in order, document `i` starts at `start` plus the page counts of all
earlier documents, its ending bates string renders as
`prefix + zfill(start_i + pages_i - 1, fill)`, and its page `j` carries
bates string `prefix + zfill(start_i + j, fill)` — contiguous numbering
with no gaps or overlaps. -/
theorem marisol_c5_contiguous_numbering (pfx : String) (fill start : Nat) (area : Area)
    (x y : ℚ) (rotation : Int) (manual : Bool) (odir : String)
    (files : List (String × List (ℚ × ℚ))) (i j : Nat) (fi : String × List (ℚ × ℚ))
    (hfi : files[i]? = some fi) (hpos : 1 ≤ fi.2.length) (hj : j < fi.2.length) :
    ∃ d : Document,
      (Marisol.appendAll (Marisol.init pfx fill start area x y rotation manual odir)
          files).documents[i]? = some d ∧
      d.start = start + ((files.take i).map (fun f => f.2.length)).sum ∧
      Document.endBates d = pfx ++ zfill (Nat.repr (d.start + fi.2.length - 1)) fill ∧
      ∃ p : Page, d.pages[j]? = some p ∧
        Page.number p = pfx ++ zfill (Nat.repr (d.start + j)) fill := by
  have hdocs := Marisol.appendAll_documents files (Marisol.init pfx fill start area x y
    rotation manual odir)
  refine ⟨Document.make fi.1 pfx fill
    (start + ((files.take i).map (fun f => f.2.length)).sum) area x y rotation manual fi.2,
    ?_, rfl, ?_, ?_⟩
  · rw [hdocs]
    exact docsOf_getElem pfx fill area x y rotation manual files start i fi hfi
  · unfold Document.endBates
    rw [Document.make_pages_length]
    rfl
  · have hjq : fi.2[j]? = some (fi.2.get ⟨j, hj⟩) := by
      simp
    refine ⟨{ pfx := pfx, fill := fill,
              start := (start + ((files.take i).map (fun f => f.2.length)).sum) + j,
              width := (fi.2.get ⟨j, hj⟩).1, height := (fi.2.get ⟨j, hj⟩).2,
              redactions := [] },
      ?_, rfl⟩
    show ((List.enumFrom 0 fi.2).map _)[j]? = _
    rw [List.getElem?_map, enumFrom_getElem 0 j fi.2, hjq]
    simp

/-- Witness for `marisol_c5_contiguous_numbering`: the collection
`prefix "ABC", fill 6, start 1` with two three-page documents gives the
second document start 4, ending bates `ABC` + zfill(4 + 3 - 1) = ABC000006,
and its third page (index 2) the bates string `ABC` + zfill(4 + 2). -/
theorem marisol_c5_contiguous_numbering_witness :
    ∃ d : Document,
      (Marisol.appendAll (Marisol.init "ABC" 6 1 Area.BOTTOM_RIGHT 300 30 0 true ".")
          [("a", [((612 : ℚ), (792 : ℚ)), (612, 792), (612, 792)]),
           ("b", [(612, 792), (612, 792), (612, 792)])]).documents[1]? = some d ∧
      d.start = 4 ∧
      Document.endBates d = "ABC" ++ zfill (Nat.repr (d.start + 3 - 1)) 6 ∧
      ∃ p : Page, d.pages[2]? = some p ∧
        Page.number p = "ABC" ++ zfill (Nat.repr (d.start + 2)) 6 := by
  exact marisol_c5_contiguous_numbering "ABC" 6 1 Area.BOTTOM_RIGHT 300 30 0 true "."
    [("a", [(612, 792), (612, 792), (612, 792)]), ("b", [(612, 792), (612, 792), (612, 792)])]
    1 2 ("b", [(612, 792), (612, 792), (612, 792)]) rfl (by decide) (by decide)

/-- Exhausting the iterator yields the documents from the current cursor
on, and leaves the cursor at the document count (or beyond, where it
already was): the `__next__` loop never rewinds. -/
theorem Marisol.drainFuel_spec (fuel : Nat) :
    ∀ m : Marisol, fuel = m.documents.length - m.index →
      Marisol.drainFuel fuel m =
        (m.documents.drop m.index, { m with index := max m.documents.length m.index }) := by
  induction fuel with
  | zero =>
    intro m h0
    have hle : m.documents.length ≤ m.index := by omega
    have hdrop : m.documents.drop m.index = [] := List.drop_eq_nil_of_le hle
    have hmax : max m.documents.length m.index = m.index := Nat.max_eq_right hle
    rw [Marisol.drainFuel, hdrop, hmax]
  | succ fuel2 ih =>
    intro m h0
    have hlt : m.index < m.documents.length := by omega
    have hnext : Marisol.nextDoc m =
        some (m.documents.get ⟨m.index, hlt⟩, { m with index := m.index + 1 }) := by
      unfold Marisol.nextDoc
      rw [dif_pos hlt]
    have h2 : fuel2 = ({ m with index := m.index + 1 } : Marisol).documents.length -
        ({ m with index := m.index + 1 } : Marisol).index := by
      show fuel2 = m.documents.length - (m.index + 1)
      omega
    have hih := ih { m with index := m.index + 1 } h2
    show (match Marisol.nextDoc m with
      | none => ([], m)
      | some (d, m2) =>
        let rest := Marisol.drainFuel fuel2 m2
        (d :: rest.1, rest.2)) =
      (m.documents.drop m.index, { m with index := max m.documents.length m.index })
    rw [hnext]
    show (m.documents.get ⟨m.index, hlt⟩ ::
        (Marisol.drainFuel fuel2 { m with index := m.index + 1 }).1,
      (Marisol.drainFuel fuel2 { m with index := m.index + 1 }).2) = _
    rw [hih]
    have hmax2 : max m.documents.length (m.index + 1) = max m.documents.length m.index := by
      omega
    show (m.documents.get ⟨m.index, hlt⟩ :: m.documents.drop (m.index + 1),
        { m with index := max m.documents.length (m.index + 1) }) = _
    rw [hmax2, List.get_eq_getElem, ← List.drop_eq_getElem_cons hlt]

/-- Closed form of one full pass of the collection's iterator. -/
theorem Marisol.drain_eq (m : Marisol) :
    Marisol.drain m =
      (m.documents.drop m.index, { m with index := max m.documents.length m.index }) :=
  Marisol.drainFuel_spec (m.documents.length - m.index) m rfl

/-- Materialising the executor's results succeeds entry by entry when
every task result is a stored value rather than a stored exception. -/
theorem collectResults_ok (f : Document → Except Exc (String × Bool))
    (g : Document → String × Bool) (l : List Document)
    (h : ∀ d ∈ l, f d = Except.ok (g d)) :
    collectResults (l.map f) = Except.ok (l.map g) := by
  induction l with
  | nil => rfl
  | cons d ds ih =>
    have hd := h d (List.mem_cons_self d ds)
    have hrest := ih (fun d2 hd2 => h d2 (List.mem_cons_of_mem d hd2))
    show collectResults (f d :: ds.map f) = Except.ok (g d :: ds.map g)
    rw [collectResults.eq_def]
    rw [hd]
    show (match collectResults (ds.map f) with
      | Except.error e => Except.error e
      | Except.ok vs => Except.ok (g d :: vs)) = Except.ok (g d :: ds.map g)
    rw [hrest]

/-- A save task whose outcome is a success or a `FileExistsError` is
captured by `_save_document` as its result entry. -/
theorem Marisol.save_document_captured (m : Marisol)
    (run : String → Bool → Document → Except Exc String) (d : Document)
    (h : capturedOutcome (run (m.output_dir ++ "/" ++ d.savename) m.overwrite d) = true) :
    Marisol.save_document m run d = Except.ok (Marisol.resultEntry m run d) := by
  show (match run (m.output_dir ++ "/" ++ d.savename) m.overwrite d with
    | Except.ok filename => Except.ok (filename, true)
    | Except.error (Exc.fileExists p) => Except.ok ("EXISTS", false)
    | Except.error e => Except.error e) = Except.ok (Marisol.resultEntry m run d)
  cases hr : run (m.output_dir ++ "/" ++ d.savename) m.overwrite d with
  | ok fn =>
    show Except.ok (fn, true) = Except.ok (Marisol.resultEntry m run d)
    unfold Marisol.resultEntry
    rw [hr]
  | error e =>
    rw [hr] at h
    cases e with
    | fileExists p =>
      show Except.ok ("EXISTS", false) = Except.ok (Marisol.resultEntry m run d)
      unfold Marisol.resultEntry
      rw [hr]
    | outsideBoundaries => exact absurd h (by simp [capturedOutcome])
    | areaReserved a => exact absurd h (by simp [capturedOutcome])
    | otherError msg => exact absurd h (by simp [capturedOutcome])

/-- C3 as amended: the first `save` call on a collection (iterator cursor
still at 0) whose per-document outcomes are all successes or collisions
returns exactly one `(name-or-EXISTS, ok)` entry per appended document, in
document append order; but the cursor is left at the end, so a second
`save` call on the returned state covers no documents and returns the
empty list instead of a fresh complete one. -/
theorem marisol_c3_first_save_in_order (m : Marisol) (ow : Bool)
    (run : String → Bool → Document → Except Exc String)
    (h0 : m.index = 0)
    (hc : ∀ d ∈ m.documents,
      capturedOutcome (run (m.output_dir ++ "/" ++ d.savename) ow d) = true) :
    (Marisol.save m ow run).1 =
      Except.ok (m.documents.map (Marisol.resultEntry { m with overwrite := ow } run)) ∧
    ((Marisol.save m ow run).2.save ow run).1 = Except.ok [] := by
  have hdr0 : ∀ m1 : Marisol, m1.index = 0 →
      Marisol.drain m1 = (m1.documents, { m1 with index := m1.documents.length }) := by
    intro m1 h1
    rw [Marisol.drain_eq, h1, List.drop_zero, Nat.max_eq_left (Nat.zero_le _)]
  have hdr := hdr0 { m with overwrite := ow } h0
  have hsave : Marisol.save m ow run =
      (collectResults (m.documents.map
          (Marisol.save_document { m with overwrite := ow } run)),
        { m with overwrite := ow, index := m.documents.length }) := by
    show (collectResults ((Marisol.drain { m with overwrite := ow }).1.map
        (Marisol.save_document { m with overwrite := ow } run)),
      (Marisol.drain { m with overwrite := ow }).2) = _
    rw [hdr]
  constructor
  · rw [hsave]
    exact collectResults_ok (Marisol.save_document { m with overwrite := ow } run)
      (Marisol.resultEntry { m with overwrite := ow } run) m.documents
      (fun d hd => Marisol.save_document_captured { m with overwrite := ow } run d (hc d hd))
  · rw [hsave]
    have hdrop2 : (Marisol.drain
        { m with overwrite := ow, index := m.documents.length } : List Document × Marisol).1 =
        [] := by
      rw [Marisol.drain_eq]
      exact List.drop_length m.documents
    show collectResults ((Marisol.drain
        { m with overwrite := ow, index := m.documents.length }).1.map
      (Marisol.save_document { m with overwrite := ow, index := m.documents.length } run)) =
      Except.ok []
    rw [hdrop2]
    rfl

/-- Witness for `marisol_c3_first_save_in_order`: a one-document
collection saved with an always-successful task gives `[("./a", true)]` on
the first call and `[]` on the second. -/
theorem marisol_c3_first_save_in_order_witness :
    (Marisol.save (Marisol.append (Marisol.init "ABC" 6 1 Area.BOTTOM_RIGHT 300 30 0 true ".")
          "a" [(612, 792)]) false (fun p _ _ => Except.ok p)).1 =
        Except.ok [("./a", true)] ∧
      ((Marisol.save (Marisol.append (Marisol.init "ABC" 6 1 Area.BOTTOM_RIGHT 300 30 0 true ".")
          "a" [(612, 792)]) false (fun p _ _ => Except.ok p)).2.save false
        (fun p _ _ => Except.ok p)).1 = Except.ok [] := by
  exact marisol_c3_first_save_in_order
    (Marisol.append (Marisol.init "ABC" 6 1 Area.BOTTOM_RIGHT 300 30 0 true ".") "a" [(612, 792)])
    false (fun p _ _ => Except.ok p) rfl (fun d hd => rfl)

/-- The table scan reports no match exactly when no entry's dimensions
equal the queried geometry. -/
theorem scanPageSizes_none (table : List (String × ℚ × ℚ)) (w h : ℚ) :
    scanPageSizes table w h = none ↔ ∀ e ∈ table, ¬(e.2.1 = w ∧ e.2.2 = h) := by
  induction table with
  | nil => simp [scanPageSizes]
  | cons e rest ih =>
    by_cases he : e.2.1 = w ∧ e.2.2 = h
    · rw [scanPageSizes, if_pos he]
      constructor
      · intro hsome
        exact absurd hsome (by simp)
      · intro hall
        exact absurd he (hall e (List.mem_cons_self e rest))
    · rw [scanPageSizes, if_neg he, ih, List.forall_mem_cons]
      constructor
      · intro hall
        exact ⟨he, hall⟩
      · intro hand
        exact hand.2

/-- A reported name comes from the first entry of the table whose
dimensions match the queried geometry exactly: every earlier entry fails
to match. -/
theorem scanPageSizes_some (table : List (String × ℚ × ℚ)) (w h : ℚ) (nm : String) :
    scanPageSizes table w h = some nm →
      ∃ pre e post, table = pre ++ e :: post ∧ e.1 = nm ∧ e.2.1 = w ∧ e.2.2 = h ∧
        ∀ e2 ∈ pre, ¬(e2.2.1 = w ∧ e2.2.2 = h) := by
  induction table with
  | nil =>
    intro hsome
    exact absurd hsome (by simp [scanPageSizes])
  | cons e rest ih =>
    intro hsome
    by_cases he : e.2.1 = w ∧ e.2.2 = h
    · rw [scanPageSizes, if_pos he] at hsome
      injection hsome with hnm
      exact ⟨[], e, rest, by simp, hnm, he.1, he.2, by simp⟩
    · rw [scanPageSizes, if_neg he] at hsome
      obtain ⟨pre, e0, post, htab, hnm, hw, hh, hpre⟩ := ih hsome
      refine ⟨e :: pre, e0, post, ?_, hnm, hw, hh, ?_⟩
      · rw [List.cons_append, htab]
      · exact List.forall_mem_cons.mpr ⟨he, hpre⟩

/-- C9: resolving a page geometry scans the fixed table of named standard
sizes and returns the name of the first exact match; a geometry matching
no entry is reported as `none` — the reportable-error case — so no caller
can obtain a guessed default size for it. -/
theorem marisol_c9_page_size_resolution (w h : ℚ) :
    (lookupPageSize w h = none ↔ ∀ e ∈ pageSizeTable, ¬(e.2.1 = w ∧ e.2.2 = h)) ∧
    (∀ nm : String, lookupPageSize w h = some nm →
      ∃ pre e post, pageSizeTable = pre ++ e :: post ∧ e.1 = nm ∧ e.2.1 = w ∧ e.2.2 = h ∧
        ∀ e2 ∈ pre, ¬(e2.2.1 = w ∧ e2.2.2 = h)) :=
  ⟨scanPageSizes_none pageSizeTable w h,
    fun nm => scanPageSizes_some pageSizeTable w h nm⟩

/-- Witness for `marisol_c9_page_size_resolution`: the geometry 612 × 792
points resolves to the first matching table entry, named LETTER. -/
theorem marisol_c9_page_size_resolution_witness :
    ∃ pre e post, pageSizeTable = pre ++ e :: post ∧ e.1 = "LETTER" ∧
      e.2.1 = (612 : ℚ) ∧ e.2.2 = (792 : ℚ) ∧
      ∀ e2 ∈ pre, ¬(e2.2.1 = (612 : ℚ) ∧ e2.2.2 = (792 : ℚ)) := by
  exact (marisol_c9_page_size_resolution 612 792).2 "LETTER"
    (by simp [lookupPageSize, scanPageSizes, pageSizeTable])
